import Mathlib

/-!
Verification development for the newborn-product market-research pipeline
(`data_pipeline.py`, `main.py`, `src/analytics.py`, `src/matching.py`,
`src/text_cleaning.py`, `src/utils_text.py`, `src/io_utils.py`).

The Python code is shallowly embedded: pandas dataframes become lists of
records, nullable cells become `Option`, floating-point scores become `ℚ`
(the arithmetic performed by the code is exact at the inputs considered),
and `pd.Timestamp`s become a calendar-date type at day granularity (the
concrete data the claims speak about carries no time-of-day component).
Strings are modeled as Lean `String` over their character lists; the
character classes used (`str.istitle`, `str.isupper`, `str.lower`,
whitespace) are modeled at ASCII granularity, which coincides with Python
on every input considered here.
-/

/-! ## Python string primitives -/

/-- Python whitespace (the characters matched by `str.strip()` / `\s` for
ASCII text): space, tab, newline, carriage return, vertical tab, form feed. -/
def pyWsB (c : Char) : Bool :=
  c == ' ' || c == '\t' || c == '\n' || c == '\r' || c == '\x0b' || c == '\x0c'

/-- Left strip (`str.lstrip()`) on character lists. -/
def lstripL (l : List Char) : List Char := l.dropWhile pyWsB

/-- Right strip (`str.rstrip()`) on character lists. -/
def rstripL (l : List Char) : List Char := (l.reverse.dropWhile pyWsB).reverse

/-- `str.strip()` on character lists: both ends trimmed. -/
def stripL (l : List Char) : List Char := rstripL (lstripL l)

/-- `str.strip()` on strings. -/
def pyStrip (s : String) : String := ⟨stripL s.data⟩

/-- ASCII uppercase test (the cased characters of the inputs considered are
ASCII, where Python's Unicode-aware predicates agree with this). -/
def isUpperA (c : Char) : Bool := 65 ≤ c.toNat && c.toNat ≤ 90

/-- ASCII lowercase test. -/
def isLowerA (c : Char) : Bool := 97 ≤ c.toNat && c.toNat ≤ 122

/-- One step of `re.sub(r"\s+", " ", ·)`: each maximal whitespace run is
replaced by a single space.  The Boolean argument records whether the
previous character belonged to a whitespace run. -/
def collapseWsAux : List Char → Bool → List Char
  | [], _ => []
  | c :: rest, prevWs =>
    if pyWsB c then
      if prevWs then collapseWsAux rest true
      else ' ' :: collapseWsAux rest true
    else c :: collapseWsAux rest false

/-- `normalize_text` from `src/utils_text.py` and `src/text_cleaning.py`
(the two files contain the identical function):
`value.replace("\n", " ").strip().lower()` followed by
`re.sub(r"\s+", " ", cleaned)`.  Non-string (missing) input maps to the
empty string at the call sites; here the argument is the present string. -/
def normalize_text (s : String) : String :=
  ⟨collapseWsAux ((stripL (s.data.map fun c => if c = '\n' then ' ' else c)).map Char.toLower) false⟩

/-- Python `str.split()` (no separator): split on whitespace runs, dropping
empty pieces.  The accumulator holds the current token reversed. -/
def pySplitAux : List Char → List Char → List (List Char)
  | [], acc => if acc.isEmpty then [] else [acc.reverse]
  | c :: rest, acc =>
    if pyWsB c then
      if acc.isEmpty then pySplitAux rest []
      else acc.reverse :: pySplitAux rest []
    else pySplitAux rest (c :: acc)

/-- `str.split()` on character lists. -/
def pySplitL (l : List Char) : List (List Char) := pySplitAux l []

/-- `str.split()` on strings. -/
def pySplit (s : String) : List String := (pySplitL s.data).map fun l => ⟨l⟩

/-- Does `needle` start `hay`? -/
def startsWithL : List Char → List Char → Bool
  | _, [] => true
  | [], _ :: _ => false
  | h :: hs, n :: ns => h == n && startsWithL hs ns

/-- Substring containment on character lists (Python `needle in hay`,
also `re.search` of a purely literal pattern). -/
def hasInfixL : List Char → List Char → Bool
  | [], needle => needle.isEmpty
  | h :: t, needle => startsWithL (h :: t) needle || hasInfixL t needle

/-- Lexicographic code-point comparison on character lists, matching both
Python string `<` and Lean `String.lt`. -/
def charListLt : List Char → List Char → Bool
  | [], [] => false
  | [], _ :: _ => true
  | _ :: _, [] => false
  | a :: as, b :: bs => if a < b then true else if b < a then false else charListLt as bs

/-- Insert a string into a sorted duplicate-free list, keeping it sorted and
duplicate-free. -/
def insertSortedStr (a : String) : List String → List String
  | [] => [a]
  | b :: bs =>
    if a = b then b :: bs
    else if charListLt a.data b.data then a :: b :: bs
    else b :: insertSortedStr a bs

/-- `sorted(set(l))` in Python: the distinct elements in code-point order. -/
def sortedUnique (l : List String) : List String := l.foldr insertSortedStr []

/-- Python `str.istitle()` main scan: uppercase must not follow a cased
character, lowercase must follow one.  `prev` records whether the previous
character was cased. -/
def istitleAux : List Char → Bool → Bool
  | [], _ => true
  | c :: rest, prev =>
    if isUpperA c then !prev && istitleAux rest true
    else if isLowerA c then prev && istitleAux rest true
    else istitleAux rest false

/-- Python `str.istitle()`: at least one cased character and title-shaped. -/
def pyIstitle (s : String) : Bool :=
  s.data.any (fun c => isUpperA c || isLowerA c) && istitleAux s.data false

/-- Python `str.isupper()`: at least one cased character and no lowercase. -/
def pyIsupper (s : String) : Bool :=
  s.data.any isUpperA && !s.data.any isLowerA

/-- `re.findall(r"#(\w+)", text)`: every `#` followed by a maximal nonempty
run of word characters yields that run; scanning resumes after the run. -/
def isWordChar (c : Char) : Bool :=
  isUpperA c || isLowerA c || (48 ≤ c.toNat && c.toNat ≤ 57) || c == '_'

/-- Scanner for `extract_hashtags` (`src/text_cleaning.py`): one pass over
the characters.  `none` means "scanning for `#`"; `some acc` means "inside
the word-character run following a `#`", with the run collected reversed in
`acc`.  A run is emitted when it ends nonempty, matching each match of the
pattern `#(\w+)` with `re.findall` semantics (scanning resumes right after
the run, and a `#` ending a run immediately opens a new candidate). -/
def extractHashtagsAux : List Char → Option (List Char) → List String
  | [], none => []
  | [], some acc => if acc.isEmpty then [] else [⟨acc.reverse⟩]
  | c :: rest, none =>
    if c = '#' then extractHashtagsAux rest (some [])
    else extractHashtagsAux rest none
  | c :: rest, some acc =>
    if isWordChar c then extractHashtagsAux rest (some (c :: acc))
    else if acc.isEmpty then
      if c = '#' then extractHashtagsAux rest (some [])
      else extractHashtagsAux rest none
    else
      (⟨acc.reverse⟩ : String) ::
        (if c = '#' then extractHashtagsAux rest (some [])
         else extractHashtagsAux rest none)

/-- `extract_hashtags` from `src/text_cleaning.py`. -/
def extract_hashtags (s : String) : List String := extractHashtagsAux s.data none

/-! ## rapidfuzz scorers

`src/matching.py` calls `rapidfuzz.process.extractOne` with
`scorer=fuzz.token_set_ratio`.  The scorer is embedded from rapidfuzz's
algorithm: split both strings on whitespace, sort and de-duplicate the
tokens, decompose into intersection and the two differences, then combine
normalized indel similarities of the joined parts.  Scores are exact
rationals on a 0–100 scale (rapidfuzz uses doubles; the arithmetic at the
inputs considered is exact). -/

/-- One dynamic-programming row update for the longest common subsequence:
given the previous row over `b` and the next character `c` of `a`, produce
the interior of the next row.  `pPrev` is the entry diagonally left-up,
`qPrev` the entry to the left in the row being built. -/
def lcsRowGo (c : Char) : List Char → List Nat → Nat → Nat → List Nat
  | [], _, _, _ => []
  | _ :: _, [], _, _ => []
  | bj :: brest, pj :: prest, pPrev, qPrev =>
    let qj := if c = bj then pPrev + 1 else max qPrev pj
    qj :: lcsRowGo c brest prest pj qj

/-- Full row update (prepends the leading `0`). -/
def lcsRowStep (c : Char) (b : List Char) (prev : List Nat) : List Nat :=
  match prev with
  | [] => [0]
  | p0 :: prest => 0 :: lcsRowGo c b prest p0 0

/-- Longest common subsequence length of two character lists. -/
def lcsLen (a b : List Char) : Nat :=
  (a.foldl (fun row c => lcsRowStep c b row) (List.replicate (b.length + 1) 0)).getLastD 0

/-- Indel (insert/delete-only Levenshtein) distance between two character
lists: `|a| + |b| - 2·lcs`. -/
def indelDist (a b : List Char) : Nat := a.length + b.length - 2 * lcsLen a b

/-- Join a token list with single spaces (rapidfuzz `join`). -/
def joinTokens (l : List String) : String := " ".intercalate l

/-- `fuzz.token_set_ratio` (rapidfuzz).  Mirrors the reference
implementation: tokenize and sort-deduplicate both sides, decompose into
intersection/differences, early-exit 100 when one token set contains the
other (nonempty intersection, one difference empty), otherwise the maximum
of the normalized indel similarity of the two `sect + diff` strings and the
two `sect` vs `sect + diff` ratios. -/
def tokenSetScore (s1 s2 : String) : ℚ :=
  let ta := sortedUnique (pySplit s1)
  let tb := sortedUnique (pySplit s2)
  if ta.isEmpty || tb.isEmpty then 0
  else
    let sect := ta.filter fun t => tb.contains t
    let diffAB := ta.filter fun t => !tb.contains t
    let diffBA := tb.filter fun t => !ta.contains t
    if !sect.isEmpty && (diffAB.isEmpty || diffBA.isEmpty) then 100
    else
      let sectLen := (joinTokens sect).length
      let abJoined := joinTokens diffAB
      let baJoined := joinTokens diffBA
      let abLen := abJoined.length
      let baLen := baJoined.length
      let bonus := if sectLen = 0 then 0 else 1
      let sectAbLen := sectLen + bonus + abLen
      let sectBaLen := sectLen + bonus + baLen
      let dist := indelDist abJoined.data baJoined.data
      let result := 100 * (1 - (dist : ℚ) / ((sectAbLen : ℚ) + (sectBaLen : ℚ)))
      if sectLen = 0 then result
      else
        let sectAbScore := 100 * (1 - ((bonus + abLen : Nat) : ℚ) / ((sectLen : ℚ) + (sectAbLen : ℚ)))
        let sectBaScore := 100 * (1 - ((bonus + baLen : Nat) : ℚ) / ((sectLen : ℚ) + (sectBaLen : ℚ)))
        max result (max sectAbScore sectBaScore)

/-- `rapidfuzz.process.extractOne` over a list of string choices: returns
the best `(choice, score, index)` by the scorer, the earliest index winning
ties, or `none` when there are no choices. -/
def extractOneGo (scorer : String → String → ℚ) (q : String) :
    List String → Nat → Option (String × ℚ × Nat) → Option (String × ℚ × Nat)
  | [], _, best => best
  | c :: cs, i, best =>
    let s := scorer q c
    let best' :=
      match best with
      | none => some (c, s, i)
      | some (bc, bs, bi) => if bs < s then some (c, s, i) else some (bc, bs, bi)
    extractOneGo scorer q cs (i + 1) best'

/-- `process.extractOne(q, choices, scorer=·)`. -/
def extractOne (scorer : String → String → ℚ) (q : String) (choices : List String) :
    Option (String × ℚ × Nat) :=
  extractOneGo scorer q choices 0 none

/-! ## `src/matching.py`: catalog resolution -/

/-- One catalog row as `match_products_to_catalog` consumes it, after the
`product_id` column has been filled (synthesized from the row position when
the input lacks it).  Field values are the stringified cells; a missing
cell stringifies to `""` at the inputs considered. -/
structure CatalogEntry where
  product_id : String
  product_name : String
  brand : String
  model : String
  category : String
deriving DecidableEq

/-- One aggregated social-product row (output of
`aggregate_product_popularity`), restricted to the columns the resolver
reads. -/
structure SocialProduct where
  product_key : String
  category : String
  brand : String
  model : String
  example_attributes : String
  post_ids : List String
deriving DecidableEq

/-- `MatchResult` from `src/matching.py`. -/
structure MatchResult where
  social_key : String
  catalog_id : Option String
  catalog_name : Option String
  score : ℚ
  source : String
deriving DecidableEq

/-- `_stringify`: join the non-empty fields with single spaces. -/
def stringifyFields (fields : List String) : String :=
  " ".intercalate (fields.filter fun s => !s.isEmpty)

/-- The catalog `match_name` search blob:
`_stringify(row, ["brand", "model", "product_name", "category"])`. -/
def matchName (c : CatalogEntry) : String :=
  stringifyFields [c.brand, c.model, c.product_name, c.category]

/-- The social-side comparison blob:
`_stringify(row, ["brand", "model", "category", "example_attributes", "product_key"])`. -/
def socialName (row : SocialProduct) : String :=
  stringifyFields [row.brand, row.model, row.category, row.example_attributes, row.product_key]

/-- The `image_lookup` dict built from the image-match rows
(`post_id ↦ product_id`); a later row with the same `post_id` overwrites an
earlier one, as in the Python dict comprehension. -/
def imageLookup (ims : List (String × String)) (pid : String) : Option String :=
  (ims.reverse.find? fun r => decide (r.1 = pid)).map (·.2)

/-- The `no_match` result emitted for a group. -/
def noMatchResult (key : String) : MatchResult := ⟨key, none, none, 0, "no_match"⟩

/-- The image tier of `match_products_to_catalog` for one group: scan the
group's `post_ids` in order for the first id present in the image lookup;
when that hit carries a non-empty product id that exists in the catalog,
produce the score-100 `image_match` result.  `none` means the loop body
fell through to the text tier (no hit, an empty id — falsy in Python — or
an id absent from the catalog). -/
def imageTier (catalog : List CatalogEntry) (ims : List (String × String))
    (row : SocialProduct) : Option MatchResult :=
  match row.post_ids.findSome? (imageLookup ims) with
  | none => none
  | some cid =>
    if cid = "" then none
    else
      match catalog.find? fun c => decide (c.product_id = cid) with
      | none => none
      | some c => some ⟨row.product_key, some cid, some c.product_name, 100, "image_match"⟩

/-- A default catalog entry, used only to express list indexing in
statements (`catalog.getD idx`); the resolver never actually reads it. -/
def defaultEntry : CatalogEntry := ⟨"", "", "", "", ""⟩

/-- The text tier of `match_products_to_catalog` for one group:
`process.extractOne` of the group blob against every catalog `match_name`
with `fuzz.token_set_ratio`; accept when the best score reaches the
threshold, else `no_match`. -/
def textTier (catalog : List CatalogEntry) (t : ℚ) (row : SocialProduct) : MatchResult :=
  match extractOne tokenSetScore (socialName row) (catalog.map matchName) with
  | none => noMatchResult row.product_key
  | some (_, score, idx) =>
    if t ≤ score then
      match catalog[idx]? with
      | some c => ⟨row.product_key, some c.product_id, some c.product_name, score, "text_match"⟩
      | none => noMatchResult row.product_key
    else noMatchResult row.product_key

/-- Resolution of one aggregated group: the image tier short-circuits the
text tier exactly when it produces a result. -/
def resolveOne (catalog : List CatalogEntry) (ims : List (String × String))
    (t : ℚ) (row : SocialProduct) : MatchResult :=
  match imageTier catalog ims row with
  | some r => r
  | none => textTier catalog t row

/-- `match_products_to_catalog` restricted to the list of `MatchResult`
records it appends (the trailing dataframe merge re-attaches them to the
input rows by `product_key` and adds no information).  The similarity
threshold defaults to 75 in the source. -/
def match_products_to_catalog (social : List SocialProduct)
    (catalog : List CatalogEntry) (ims : List (String × String)) (t : ℚ) :
    List MatchResult :=
  social.map (resolveOne catalog ims t)

/-! ## `src/analytics.py`: category, brand/model, product key, trends -/

/-- `CATEGORY_KEYWORDS` of `src/analytics.py`, in declaration (insertion)
order — Python dicts preserve it. -/
def CATEGORY_KEYWORDS_ANALYTICS : List (String × List String) :=
  [("stroller", ["stroller", "pram", "buggy"]),
   ("baby bottle", ["bottle", "feeding bottle", "silicone bottle"]),
   ("onesie", ["onesie", "bodysuit", "romper"]),
   ("crib", ["crib", "cot", "bassinet"]),
   ("diaper", ["diaper", "nappy", "pampers"]),
   ("carrier", ["carrier", "wrap", "sling"]),
   ("car seat", ["car seat", "infant seat"]),
   ("pacifier", ["pacifier", "dummy", "soother"]),
   ("toy", ["toy", "rattle", "teether"])]

/-- `infer_category` of `src/analytics.py`: first category (in declaration
order) one of whose keywords occurs as a plain substring (`keyword in
text`), else `"unknown"`. -/
def infer_category_analytics (text : String) : String :=
  match CATEGORY_KEYWORDS_ANALYTICS.find? (fun p => p.2.any fun k => hasInfixL text.data k.data) with
  | some p => p.1
  | none => "unknown"

/-- `make_product_key` of `src/analytics.py`:
`" | ".join([category, brand, model]).strip()`.  At its call sites the
three cells are present strings (`prepare_social_products` fills brand with
`"unknown"` and model with `""` beforehand), so the `.get` defaults never
fire. -/
def make_product_key (category brand model : String) : String :=
  pyStrip (category ++ " | " ++ brand ++ " | " ++ model)

/-- The model half of `detect_brand_and_model` (`src/analytics.py`): the
first whitespace token of the given text that is title-cased or
all-uppercase, else `none`. -/
def detectModel (text : String) : Option String :=
  ((pySplit text).filter fun tok => pyIstitle tok || pyIsupper tok).head?

/-- One raw social post, restricted to the two text columns the model
heuristic consumes. -/
structure RawPost where
  caption : String
  hashtags : String
deriving DecidableEq

/-- `caption_clean` produced by `clean_social_posts`
(`src/text_cleaning.py`): the normalized caption. -/
def captionClean (p : RawPost) : String := normalize_text p.caption

/-- `hashtags_list` produced by `clean_social_posts`: hashtags extracted
from the raw hashtag string — their case is preserved. -/
def hashtagsList (p : RawPost) : List String := extract_hashtags p.hashtags

/-- The text handed to `detect_brand_and_model` inside
`prepare_social_products`:
`" ".join([row["caption_clean"], " ".join(row["hashtags_list"])])`. -/
def extractText (p : RawPost) : String :=
  " ".intercalate [captionClean p, " ".intercalate (hashtagsList p)]

/-- The model the pipeline infers for one post. -/
def modelOfPost (p : RawPost) : Option String := detectModel (extractText p)

/-! ### Time trends (`compute_time_trends`) -/

/-- A calendar date, modeling a `pd.Timestamp` at day granularity (the
inputs considered carry no time-of-day component). -/
structure PyDate where
  y : Nat
  m : Nat
  d : Nat
deriving DecidableEq

/-- Lexicographic (chronological) `≤` on dates. -/
def dateLeB (a b : PyDate) : Bool :=
  Nat.blt a.y b.y ||
    (a.y == b.y && (Nat.blt a.m b.m || (a.m == b.m && Nat.ble a.d b.d)))

/-- Gregorian leap year. -/
def isLeapYear (y : Nat) : Bool := (y % 4 == 0 && y % 100 != 0) || y % 400 == 0

/-- Days in a month. -/
def daysInMonth (y m : Nat) : Nat :=
  if m = 2 then (if isLeapYear y then 29 else 28)
  else if m = 4 || m = 6 || m = 9 || m = 11 then 30
  else 31

/-- `ts - pd.DateOffset(months=n)`: subtract `n` calendar months, clamping
the day to the target month's length. -/
def PyDate.subMonths (dt : PyDate) (n : Nat) : PyDate :=
  let tot := dt.y * 12 + (dt.m - 1) - n
  let y := tot / 12
  let m := tot % 12 + 1
  ⟨y, m, min dt.d (daysInMonth y m)⟩

/-- One social post as `compute_time_trends` consumes it: its product key
and its parsed timestamp (`pd.to_datetime(..., errors="coerce")`; `none`
is `NaT`). -/
structure TrendPost where
  product_key : String
  timestamp : Option PyDate
deriving DecidableEq

/-- `df["timestamp"].max()`: latest parseable timestamp, `none` when every
timestamp is `NaT`. -/
def latestDate (posts : List TrendPost) : Option PyDate :=
  (posts.filterMap (·.timestamp)).foldl
    (fun acc ts =>
      match acc with
      | none => some ts
      | some m => some (if dateLeB m ts then ts else m))
    none

/-- Association-list lookup by key (first matching pair wins), used to read
one key's row out of a computed table. -/
def lookupBy {β : Type} (k : String) : List (String × β) → Option β
  | [] => none
  | (k', v) :: rest => if k' = k then some v else lookupBy k rest

/-- Membership in the recent window: `timestamp >= recent_cutoff`
(`NaT` compares false). -/
def inRecentWindow (rcut : PyDate) (p : TrendPost) : Bool :=
  p.timestamp.any fun ts => dateLeB rcut ts

/-- Membership in the prior window:
`prior_cutoff <= timestamp < recent_cutoff`. -/
def inPriorWindow (pcut rcut : PyDate) (p : TrendPost) : Bool :=
  p.timestamp.any fun ts => dateLeB pcut ts && !dateLeB rcut ts

/-- `compute_time_trends` (`src/analytics.py`) as the `product_key ↦
trend_growth` table it returns.  When no timestamp parses, every key gets
growth `0.0`; otherwise only keys with at least one post in the recent or
prior window appear (they are the union of the two `groupby` indexes fed to
`pd.concat`), with growth `(recent_posts + 1) / (prior_posts + 1)` after
`fillna(0)`. -/
def compute_time_trends (posts : List TrendPost) (recentMonths priorMonths : Nat) :
    List (String × ℚ) :=
  match latestDate posts with
  | none => ((posts.map (·.product_key)).dedup).map fun k => (k, 0)
  | some latest =>
    let rcut := latest.subMonths recentMonths
    let pcut := rcut.subMonths priorMonths
    let recent := posts.filter (inRecentWindow rcut)
    let prior := posts.filter (inPriorWindow pcut rcut)
    let keys := (recent.map (·.product_key) ++ prior.map (·.product_key)).dedup
    keys.map fun k =>
      (k, ((recent.countP fun p => decide (p.product_key = k)) + 1 : ℚ)
            / ((prior.countP fun p => decide (p.product_key = k)) + 1 : ℚ))

/-- Number of the key's posts in the recent window (0 when nothing parses). -/
def recentPostCount (posts : List TrendPost) (recentMonths : Nat) (k : String) : Nat :=
  match latestDate posts with
  | none => 0
  | some latest =>
    (posts.filter fun p =>
      decide (p.product_key = k) && inRecentWindow (latest.subMonths recentMonths) p).length

/-- Number of the key's posts in the prior window (0 when nothing parses). -/
def priorPostCount (posts : List TrendPost) (recentMonths priorMonths : Nat) (k : String) : Nat :=
  match latestDate posts with
  | none => 0
  | some latest =>
    let rcut := latest.subMonths recentMonths
    (posts.filter fun p =>
      decide (p.product_key = k) && inPriorWindow (rcut.subMonths priorMonths) rcut p).length

/-! ## `data_pipeline.py` and `src/utils_text.py` -/

/-- `contains_any` of `src/utils_text.py`.  The source builds the pattern
with the RAW string `r"\\b(…)\\b"`, whose characters are backslash,
backslash, `b` — in a regular expression that is an escaped literal
backslash followed by a literal `b`, NOT the word-boundary assertion `\b`.
Each keyword is alphanumeric-plus-space in this codebase, so `re.escape`
leaves it unchanged, and the compiled pattern is a purely literal
alternation: `re.search` succeeds exactly when the text contains the
two characters `\` `b`, then some keyword (lowercased), then `\` `b`
again, as a contiguous substring. -/
def contains_any (text : String) (keywords : List String) : Bool :=
  keywords.any fun k =>
    hasInfixL text.data ('\\' :: 'b' :: (k.data.map Char.toLower ++ ['\\', 'b']))

/-- `CATEGORY_KEYWORDS` of `data_pipeline.py`, in declaration order. -/
def CATEGORY_KEYWORDS_DP : List (String × List String) :=
  [("stroller", ["stroller", "pram", "pushchair"]),
   ("crib", ["crib", "cot", "bassinet"]),
   ("baby bottle", ["bottle", "feeding bottle"]),
   ("pacifier", ["pacifier", "soother", "dummy"]),
   ("diaper", ["diaper", "nappy"]),
   ("onesie", ["onesie", "bodysuit"]),
   ("carrier", ["carrier", "wrap", "sling"]),
   ("car seat", ["car seat", "infant seat"]),
   ("high chair", ["high chair"])]

/-- `infer_category` of `data_pipeline.py`: first category (in declaration
order) whose keyword list satisfies `contains_any`, else `None`. -/
def infer_category_dp (text : String) : Option String :=
  (CATEGORY_KEYWORDS_DP.find? fun p => contains_any text p.2).map (·.1)

/-- The module-level `BABY_KEYWORDS` default of `data_pipeline.py`. -/
def BABY_KEYWORDS : List String :=
  ["baby", "newborn", "infant", "stroller", "pram", "crib", "cot", "diaper",
   "nappy", "bottle", "pacifier", "onesie", "swaddle", "carrier", "sling",
   "car seat", "high chair"]

/-- `filter_baby_posts`, with posts represented by their `text_blob`
column (the only column the filter reads): keep the blobs satisfying
`contains_any` against the current global keyword list. -/
def filter_baby_posts (globalKeywords : List String) (blobs : List String) : List String :=
  blobs.filter fun t => contains_any t globalKeywords

/-- The keyword-rebinding statement in `pipeline()`
(`if keyword_list: global BABY_KEYWORDS; BABY_KEYWORDS = list(keyword_list)`):
the process-wide list after the statement, given its value before the call
and the `keyword_list` argument (`none` = omitted; an empty list is falsy
and leaves the global untouched). -/
def applyKeywordOverride (globalKeywords : List String)
    (keywordList : Option (List String)) : List String :=
  match keywordList with
  | some ks => if ks.isEmpty then globalKeywords else ks
  | none => globalKeywords

/-- The keyword-sensitive stage of one `pipeline()` call: rebind the global
(per `applyKeywordOverride`), then filter the cleaned posts against the
now-current global.  Returns the global as left behind for subsequent
calls, and the filtered posts. -/
def pipelineKeywordStage (globalKeywords : List String)
    (keywordList : Option (List String)) (blobs : List String) :
    List String × List String :=
  let g := applyKeywordOverride globalKeywords keywordList
  (g, filter_baby_posts g blobs)

/-! ### Schema validation (`validate_columns`, `pipeline`) -/

/-- `REQUIRED_SOCIAL_COLUMNS` (`data_pipeline.py`; a Python set, listed
here in source order). -/
def REQUIRED_SOCIAL_COLUMNS : List String :=
  ["post_id", "image_id", "image_url", "caption", "hashtags", "likes",
   "comments", "posted_at", "platform"]

/-- `REQUIRED_PRODUCT_COLUMNS` (`data_pipeline.py`). -/
def REQUIRED_PRODUCT_COLUMNS : List String :=
  ["product_id", "product_name", "brand", "model", "category", "price",
   "currency", "url", "rating", "marketplace"]

/-- `IMAGE_MATCH_COLUMNS` (`data_pipeline.py`). -/
def IMAGE_MATCH_COLUMNS : List String := ["image_id", "product_id", "score"]

/-- `validate_columns`: `missing = set(required) - set(df.columns)`; raise
listing `sorted(missing)` when nonempty.  `some m` is the raised error's
column list, `none` means validation passed. -/
def validate_columns (cols required : List String) : Option (List String) :=
  if (sortedUnique (required.filter fun r => !cols.contains r)).isEmpty then none
  else some (sortedUnique (required.filter fun r => !cols.contains r))

/-- The validation prefix of `pipeline()`: each input is validated right
after it is read, before any cleaning/matching/aggregation; the first
failure aborts the run with that input's name and full sorted missing-column
list.  `.ok` means control reached the computation stages. -/
def pipelineValidation (socialCols productCols : List String)
    (imageCols : Option (List String)) : Except (String × List String) Unit :=
  match validate_columns socialCols REQUIRED_SOCIAL_COLUMNS with
  | some m => .error ("social_posts", m)
  | none =>
    match validate_columns productCols REQUIRED_PRODUCT_COLUMNS with
    | some m => .error ("products_catalog", m)
    | none =>
      match imageCols with
      | none => .ok ()
      | some ic =>
        match validate_columns ic IMAGE_MATCH_COLUMNS with
        | some m => .error ("image_matches", m)
        | none => .ok ()

/-! ### Price statistics (`aggregate_prices`) -/

/-- One catalog row as `aggregate_prices` consumes it: the product id, the
price after `pd.to_numeric(..., errors="coerce")` (`none` = the cell was
missing or non-numeric and became `NaN`), and the nullable rating used by
the `src/matching.py` variant's `avg_rating`. -/
structure CatalogPriceRow where
  product_id : String
  price : Option ℚ
  rating : Option ℚ
deriving DecidableEq

/-- Insert into a sorted rational list (duplicates kept). -/
def insertSortedQ (a : ℚ) : List ℚ → List ℚ
  | [] => [a]
  | b :: bs => if a ≤ b then a :: b :: bs else b :: insertSortedQ a bs

/-- Sort a rational list ascending. -/
def sortQ (l : List ℚ) : List ℚ := l.foldr insertSortedQ []

/-- pandas `Series.median` over the non-null values: middle element for odd
length, mean of the two middle elements for even length, `NaN` (`none`)
when empty. -/
def pyMedian (l : List ℚ) : Option ℚ :=
  let s := sortQ l
  let n := s.length
  if n = 0 then none
  else if n % 2 = 1 then s[n / 2]?
  else
    match s[n / 2 - 1]?, s[n / 2]? with
    | some a, some b => some ((a + b) / 2)
    | _, _ => none

/-- pandas `min` aggregation (skips `NaN`; `NaN` when nothing remains). -/
def listMinQ (l : List ℚ) : Option ℚ :=
  l.foldl (fun acc x => match acc with | none => some x | some m => some (min m x)) none

/-- pandas `max` aggregation. -/
def listMaxQ (l : List ℚ) : Option ℚ :=
  l.foldl (fun acc x => match acc with | none => some x | some m => some (max m x)) none

/-- pandas `mean` aggregation over the non-null values. -/
def meanQ (l : List ℚ) : Option ℚ :=
  if l.isEmpty then none else some (l.sum / (l.length : ℚ))

/-- The parsed prices of one product: rows with that id whose price cell
parsed — `NaN` prices are dropped by the skipna aggregations, never turned
into 0. -/
def parsedPrices (catalog : List CatalogPriceRow) (pid : String) : List ℚ :=
  ((catalog.filter fun r => decide (r.product_id = pid)).filterMap (·.price))

/-- The non-null ratings of one product. -/
def ratingsOf (catalog : List CatalogPriceRow) (pid : String) : List ℚ :=
  ((catalog.filter fun r => decide (r.product_id = pid)).filterMap (·.rating))

/-- The per-product price statistics row: `(min, median, max, avg_rating)`. -/
def priceStatsFor (catalog : List CatalogPriceRow) (pid : String) :
    Option ℚ × Option ℚ × Option ℚ × Option ℚ :=
  (listMinQ (parsedPrices catalog pid), pyMedian (parsedPrices catalog pid),
   listMaxQ (parsedPrices catalog pid), meanQ (ratingsOf catalog pid))

/-- `aggregate_prices` (`data_pipeline.py`) / `summarize_catalog_prices`
(`src/matching.py`): `groupby("product_id")` with skipna min/median/max
price and mean rating — one row per distinct product id (the url/currency
columns, which no claim touches, are omitted). -/
def aggregate_prices (catalog : List CatalogPriceRow) :
    List (String × (Option ℚ × Option ℚ × Option ℚ × Option ℚ)) :=
  ((catalog.map (·.product_id)).dedup).map fun pid => (pid, priceStatsFor catalog pid)

/-! ## Helper lemmas -/

theorem dropWhile_append_eq {α : Type} [DecidableEq α] (p : α → Bool) (x y : List α) :
    (x ++ y).dropWhile p
      = if x.dropWhile p = [] then y.dropWhile p else x.dropWhile p ++ y := by
  induction x with
  | nil => simp
  | cons a as ih =>
    by_cases h : p a
    · simpa [List.dropWhile_cons, h] using ih
    · simp [List.dropWhile_cons, h]

theorem dropWhile_length_le {α : Type} (p : α → Bool) (l : List α) :
    (l.dropWhile p).length ≤ l.length := by
  induction l with
  | nil => simp
  | cons a as ih =>
    by_cases h : p a
    · rw [List.dropWhile_cons_of_pos h]
      exact Nat.le_succ_of_le ih
    · rw [List.dropWhile_cons_of_neg h]

theorem dropWhile_ne_nil_of_mem {α : Type} (p : α → Bool) (l : List α) (a : α)
    (ha : a ∈ l) (hpa : p a = false) : l.dropWhile p ≠ [] := by
  induction l with
  | nil => cases ha
  | cons b bs ih =>
    by_cases hb : p b
    · rw [List.dropWhile_cons_of_pos hb]
      rcases List.mem_cons.mp ha with rfl | h
      · rw [hb] at hpa; cases hpa
      · exact ih h
    · rw [List.dropWhile_cons_of_neg hb]
      simp

theorem rstripL_append (x y : List Char) :
    rstripL (x ++ y) = if rstripL y = [] then rstripL x else x ++ rstripL y := by
  unfold rstripL
  rw [List.reverse_append, dropWhile_append_eq]
  by_cases h : y.reverse.dropWhile pyWsB = []
  · rw [if_pos h, if_pos (by simp [h])]
  · rw [if_neg h, if_neg (by simp [h]), List.reverse_append, List.reverse_reverse]

theorem lstripL_append_of_ne (x y : List Char) (h : lstripL x ≠ []) :
    lstripL (x ++ y) = lstripL x ++ y := by
  unfold lstripL at *
  rw [dropWhile_append_eq, if_neg h]

theorem rstripL_length_le (l : List Char) : (rstripL l).length ≤ l.length := by
  unfold rstripL
  calc (l.reverse.dropWhile pyWsB).reverse.length
      = (l.reverse.dropWhile pyWsB).length := List.length_reverse _
    _ ≤ l.reverse.length := dropWhile_length_le _ _
    _ = l.length := List.length_reverse _

theorem filter_head?_eq_find? {α : Type} (p : α → Bool) (l : List α) :
    (l.filter p).head? = l.find? p := by
  induction l with
  | nil => rfl
  | cons a as ih =>
    by_cases h : p a
    · simp [List.filter_cons, List.find?_cons, h]
    · simp [List.filter_cons, List.find?_cons, h, ih]

theorem lookupBy_map_of_mem {β : Type} (f : String → β) (k : String)
    (keys : List String) (h : k ∈ keys) :
    lookupBy k (keys.map fun k' => (k', f k')) = some (f k) := by
  induction keys with
  | nil => cases h
  | cons a as ih =>
    simp only [List.map_cons, lookupBy]
    by_cases hak : a = k
    · subst hak; simp
    · rw [if_neg hak]
      rcases List.mem_cons.mp h with rfl | h1
      · exact absurd rfl hak
      · exact ih h1

theorem lookupBy_map_of_not_mem {β : Type} (f : String → β) (k : String)
    (keys : List String) (h : k ∉ keys) :
    lookupBy k (keys.map fun k' => (k', f k')) = none := by
  induction keys with
  | nil => rfl
  | cons a as ih =>
    simp only [List.map_cons, lookupBy]
    by_cases hak : a = k
    · exact absurd (List.mem_cons.mpr (Or.inl hak.symm)) h
    · rw [if_neg hak]
      exact ih fun h1 => h (List.mem_cons_of_mem a h1)

theorem mem_insertSortedStr (a x : String) (l : List String) :
    x ∈ insertSortedStr a l ↔ x = a ∨ x ∈ l := by
  induction l with
  | nil => simp [insertSortedStr]
  | cons b bs ih =>
    simp only [insertSortedStr]
    split
    · next hab =>
      subst hab
      constructor
      · exact fun h => Or.inr h
      · rintro (rfl | h)
        · exact List.mem_cons_self _ _
        · exact h
    · next hab =>
      split
      · simp [List.mem_cons]
      · simp only [List.mem_cons, ih]
        tauto

theorem mem_sortedUnique (x : String) (l : List String) :
    x ∈ sortedUnique l ↔ x ∈ l := by
  induction l with
  | nil => simp [sortedUnique]
  | cons a as ih =>
    show x ∈ insertSortedStr a (sortedUnique as) ↔ _
    rw [mem_insertSortedStr]
    simp [ih]

theorem exists_of_findSome? {α β : Type} (f : α → Option β) (l : List α) (b : β)
    (h : l.findSome? f = some b) : ∃ a ∈ l, f a = some b := by
  induction l with
  | nil => cases h
  | cons x xs ih =>
    rw [List.findSome?_cons] at h
    cases hf : f x with
    | some v =>
      rw [hf] at h
      refine ⟨x, List.mem_cons_self _ _, ?_⟩
      rw [hf]
      exact h
    | none =>
      rw [hf] at h
      obtain ⟨a, ha, hfa⟩ := ih h
      exact ⟨a, List.mem_cons_of_mem _ ha, hfa⟩

theorem isUpperA_toLower (c : Char) : isUpperA (Char.toLower c) = false := by
  show isUpperA (if c.toNat ≥ 65 ∧ c.toNat ≤ 90 then Char.ofNat (c.toNat + 32) else c) = false
  by_cases h : c.toNat ≥ 65 ∧ c.toNat ≤ 90
  · rw [if_pos h]
    have hv : (c.toNat + 32).isValidChar := Or.inl (by omega)
    have ht : (Char.ofNat (c.toNat + 32)).toNat = c.toNat + 32 := by
      unfold Char.ofNat
      rw [dif_pos hv]
      rfl
    unfold isUpperA
    rw [ht]
    have : ¬ (c.toNat + 32 ≤ 90) := by omega
    simp only [Bool.and_eq_false_iff, decide_eq_false_iff_not]
    exact Or.inr this
  · rw [if_neg h]
    unfold isUpperA
    simp only [Bool.and_eq_false_iff, decide_eq_false_iff_not]
    omega

theorem collapseWsAux_chars (l : List Char) (b : Bool) (c : Char)
    (hc : c ∈ collapseWsAux l b) : c = ' ' ∨ c ∈ l := by
  induction l generalizing b with
  | nil => cases hc
  | cons d rest ih =>
    simp only [collapseWsAux] at hc
    by_cases hw : pyWsB d
    · rw [if_pos hw] at hc
      by_cases hb : b
      · simp only [if_pos hb] at hc
        rcases ih _ hc with h | h
        · exact Or.inl h
        · exact Or.inr (List.mem_cons_of_mem _ h)
      · simp only [Bool.not_eq_true] at hb
        rw [hb] at hc
        simp only [Bool.false_eq_true, if_false] at hc
        rcases List.mem_cons.mp hc with rfl | h
        · exact Or.inl rfl
        · rcases ih _ h with h1 | h1
          · exact Or.inl h1
          · exact Or.inr (List.mem_cons_of_mem _ h1)
    · rw [if_neg hw] at hc
      rcases List.mem_cons.mp hc with rfl | h
      · exact Or.inr (List.mem_cons_self _ _)
      · rcases ih _ h with h1 | h1
        · exact Or.inl h1
        · exact Or.inr (List.mem_cons_of_mem _ h1)

theorem normalize_chars_not_upper (s : String) (c : Char)
    (hc : c ∈ (normalize_text s).data) : isUpperA c = false := by
  have hc' : c ∈ collapseWsAux
      ((stripL (s.data.map fun ch => if ch = '\n' then ' ' else ch)).map Char.toLower) false := hc
  rcases collapseWsAux_chars _ _ _ hc' with rfl | h
  · decide
  · rcases List.mem_map.mp h with ⟨d, _, rfl⟩
    exact isUpperA_toLower d

theorem mem_of_mem_pySplitAux (l : List Char) :
    ∀ (acc t : List Char), t ∈ pySplitAux l acc → ∀ c ∈ t, c ∈ l ∨ c ∈ acc := by
  induction l with
  | nil =>
    intro acc t ht c hc
    simp only [pySplitAux] at ht
    split at ht
    · cases ht
    · rcases List.mem_singleton.mp ht with rfl
      exact Or.inr (List.mem_reverse.mp hc)
  | cons d rest ih =>
    intro acc t ht c hc
    simp only [pySplitAux] at ht
    by_cases hw : pyWsB d
    · rw [if_pos hw] at ht
      by_cases ha : acc.isEmpty
      · rw [if_pos ha] at ht
        rcases ih _ _ ht c hc with h | h
        · exact Or.inl (List.mem_cons_of_mem _ h)
        · cases h
      · rw [if_neg ha] at ht
        rcases List.mem_cons.mp ht with rfl | h
        · exact Or.inr (List.mem_reverse.mp hc)
        · rcases ih _ _ h c hc with h1 | h1
          · exact Or.inl (List.mem_cons_of_mem _ h1)
          · cases h1
    · rw [if_neg hw] at ht
      rcases ih _ _ ht c hc with h | h
      · exact Or.inl (List.mem_cons_of_mem _ h)
      · rcases List.mem_cons.mp h with rfl | h1
        · exact Or.inl (List.mem_cons_self _ _)
        · exact Or.inr h1

theorem mem_of_mem_pySplit (s tok : String) (htok : tok ∈ pySplit s)
    (c : Char) (hc : c ∈ tok.data) : c ∈ s.data := by
  rcases List.mem_map.mp htok with ⟨t, ht, rfl⟩
  rcases mem_of_mem_pySplitAux s.data [] t ht c hc with h | h
  · exact h
  · cases h

theorem istitleAux_no_upper (l : List Char) (h : ∀ c ∈ l, isUpperA c = false) :
    istitleAux l false = true → ∀ c ∈ l, isLowerA c = false := by
  induction l with
  | nil => intro _ c hc; cases hc
  | cons a as ih =>
    intro haux c hc
    have ha := h a (List.mem_cons_self _ _)
    rw [istitleAux, ha] at haux
    simp only [Bool.false_eq_true, if_false] at haux
    by_cases hl : isLowerA a
    · rw [if_pos hl] at haux
      simp at haux
    · rw [if_neg hl] at haux
      rcases List.mem_cons.mp hc with rfl | h1
      · simpa using hl
      · exact ih (fun x hx => h x (List.mem_cons_of_mem _ hx)) haux c h1

theorem title_or_upper_false_of_no_upper (tok : String)
    (h : ∀ c ∈ tok.data, isUpperA c = false) :
    (pyIstitle tok || pyIsupper tok) = false := by
  have hup : tok.data.any isUpperA = false := by
    rw [List.any_eq_false]
    intro c hc
    simp [h c hc]
  unfold pyIstitle pyIsupper
  rw [hup]
  by_cases haux : istitleAux tok.data false
  · have hlow := istitleAux_no_upper tok.data h haux
    have hcased : tok.data.any (fun c => isUpperA c || isLowerA c) = false := by
      rw [List.any_eq_false]
      intro c hc
      simp [h c hc, hlow c hc]
    rw [hcased]
    simp
  · simp only [Bool.not_eq_true] at haux
    rw [haux]
    simp

theorem extractOneGo_score_le (scorer : String → String → ℚ) (q : String) (C : ℚ)
    (hs : ∀ a b, scorer a b ≤ C) :
    ∀ (cs : List String) (i : Nat) (best : Option (String × ℚ × Nat)),
      (∀ bc bs bi, best = some (bc, bs, bi) → bs ≤ C) →
      ∀ n s j, extractOneGo scorer q cs i best = some (n, s, j) → s ≤ C := by
  intro cs
  induction cs with
  | nil =>
    intro i best hbest n s j h
    exact hbest n s j h
  | cons c rest ih =>
    intro i best hbest n s j h
    refine ih (i + 1) _ ?_ n s j h
    intro bc bs bi hb
    cases best with
    | none =>
      simp only at hb
      injection hb with hb
      injection hb with hb1 hb2
      injection hb2 with hb2 hb3
      rw [← hb2]
      exact hs q c
    | some trip =>
      obtain ⟨oc, os, oi⟩ := trip
      simp only at hb
      split at hb
      · injection hb with hb
        injection hb with hb1 hb2
        injection hb2 with hb2 hb3
        rw [← hb2]
        exact hs q c
      · injection hb with hb
        injection hb with hb1 hb2
        injection hb2 with hb2 hb3
        rw [← hb2]
        exact hbest oc os oi rfl

theorem extractOne_score_le (scorer : String → String → ℚ) (q : String)
    (choices : List String) (C : ℚ) (hs : ∀ a b, scorer a b ≤ C)
    (n : String) (s : ℚ) (j : Nat)
    (h : extractOne scorer q choices = some (n, s, j)) : s ≤ C :=
  extractOneGo_score_le scorer q C hs choices 0 none (by intro _ _ _ h1; cases h1) n s j h

theorem extractOneGo_idx_lt (scorer : String → String → ℚ) (q : String) :
    ∀ (cs : List String) (i : Nat) (best : Option (String × ℚ × Nat)),
      (∀ bc bs bi, best = some (bc, bs, bi) → bi < i) →
      ∀ n s j, extractOneGo scorer q cs i best = some (n, s, j) → j < i + cs.length := by
  intro cs
  induction cs with
  | nil =>
    intro i best hbest n s j h
    simpa using hbest n s j h
  | cons c rest ih =>
    intro i best hbest n s j h
    have hj : j < (i + 1) + rest.length := by
      refine ih (i + 1) _ ?_ n s j h
      intro bc bs bi hb
      cases best with
      | none =>
        simp only at hb
        injection hb with hb
        injection hb with hb1 hb2
        injection hb2 with hb2 hb3
        omega
      | some trip =>
        obtain ⟨oc, os, oi⟩ := trip
        simp only at hb
        split at hb
        · injection hb with hb
          injection hb with hb1 hb2
          injection hb2 with hb2 hb3
          omega
        · injection hb with hb
          injection hb with hb1 hb2
          injection hb2 with hb2 hb3
          have := hbest oc os oi rfl
          omega
    simpa [Nat.add_assoc, Nat.add_comm 1 rest.length] using hj

theorem extractOne_idx_lt (scorer : String → String → ℚ) (q : String)
    (choices : List String) (n : String) (s : ℚ) (j : Nat)
    (h : extractOne scorer q choices = some (n, s, j)) : j < choices.length := by
  have := extractOneGo_idx_lt scorer q choices 0 none (by intro _ _ _ h1; cases h1) n s j h
  simpa using this

theorem hundred_mul_one_sub_le (x : ℚ) (hx : 0 ≤ x) : 100 * (1 - x) ≤ 100 := by
  nlinarith

theorem tokenSetScore_le_hundred (s1 s2 : String) : tokenSetScore s1 s2 ≤ 100 := by
  unfold tokenSetScore
  simp only []
  split
  · norm_num
  · split
    · exact le_refl 100
    · have hdiv : ∀ (a b : Nat), (0:ℚ) ≤ (a : ℚ) / (b : ℚ) := fun a b =>
        div_nonneg (Nat.cast_nonneg a) (Nat.cast_nonneg b)
      split
      · exact hundred_mul_one_sub_le _ (div_nonneg (Nat.cast_nonneg _) (by positivity))
      · refine max_le ?_ (max_le ?_ ?_)
        · exact hundred_mul_one_sub_le _ (div_nonneg (Nat.cast_nonneg _) (by positivity))
        · exact hundred_mul_one_sub_le _ (div_nonneg (Nat.cast_nonneg _) (by positivity))
        · exact hundred_mul_one_sub_le _ (div_nonneg (Nat.cast_nonneg _) (by positivity))

theorem resolveOne_of_imageTier_some (catalog : List CatalogEntry)
    (ims : List (String × String)) (t : ℚ) (row : SocialProduct) (r : MatchResult)
    (h : imageTier catalog ims row = some r) : resolveOne catalog ims t row = r := by
  unfold resolveOne
  rw [h]

theorem resolveOne_of_imageTier_none (catalog : List CatalogEntry)
    (ims : List (String × String)) (t : ℚ) (row : SocialProduct)
    (h : imageTier catalog ims row = none) :
    resolveOne catalog ims t row = textTier catalog t row := by
  unfold resolveOne
  rw [h]

theorem imageTier_inv (catalog : List CatalogEntry) (ims : List (String × String))
    (row : SocialProduct) (r : MatchResult) (h : imageTier catalog ims row = some r) :
    ∃ cid c, row.post_ids.findSome? (imageLookup ims) = some cid ∧ cid ≠ ""
      ∧ catalog.find? (fun e => decide (e.product_id = cid)) = some c
      ∧ r = ⟨row.product_key, some cid, some c.product_name, 100, "image_match"⟩ := by
  unfold imageTier at h
  split at h
  · exact Option.noConfusion h
  · next cid hfs =>
    split at h
    · exact Option.noConfusion h
    · next hcid =>
      split at h
      · exact Option.noConfusion h
      · next c hfind =>
        injection h with h
        exact ⟨cid, c, hfs, hcid, hfind, h.symm⟩

theorem imageTier_of_hit (catalog : List CatalogEntry) (ims : List (String × String))
    (row : SocialProduct) (cid : String) (c : CatalogEntry)
    (h1 : row.post_ids.findSome? (imageLookup ims) = some cid)
    (h2 : cid ≠ "")
    (h3 : catalog.find? (fun e => decide (e.product_id = cid)) = some c) :
    imageTier catalog ims row
      = some ⟨row.product_key, some cid, some c.product_name, 100, "image_match"⟩ := by
  unfold imageTier
  simp only [h1, h3, if_neg h2]

theorem textTier_of_none (catalog : List CatalogEntry) (t : ℚ) (row : SocialProduct)
    (h : extractOne tokenSetScore (socialName row) (catalog.map matchName) = none) :
    textTier catalog t row = noMatchResult row.product_key := by
  unfold textTier
  rw [h]

theorem textTier_of_hit (catalog : List CatalogEntry) (t : ℚ) (row : SocialProduct)
    (n : String) (s : ℚ) (j : Nat) (c : CatalogEntry)
    (h : extractOne tokenSetScore (socialName row) (catalog.map matchName) = some (n, s, j))
    (hts : t ≤ s) (hc : catalog[j]? = some c) :
    textTier catalog t row
      = ⟨row.product_key, some c.product_id, some c.product_name, s, "text_match"⟩ := by
  unfold textTier
  simp only [h]
  rw [if_pos hts]
  simp only [hc]

theorem textTier_of_low (catalog : List CatalogEntry) (t : ℚ) (row : SocialProduct)
    (n : String) (s : ℚ) (j : Nat)
    (h : extractOne tokenSetScore (socialName row) (catalog.map matchName) = some (n, s, j))
    (hts : s < t) :
    textTier catalog t row = noMatchResult row.product_key := by
  unfold textTier
  simp only [h]
  rw [if_neg (not_le.mpr hts)]

theorem textTier_of_oob (catalog : List CatalogEntry) (t : ℚ) (row : SocialProduct)
    (n : String) (s : ℚ) (j : Nat)
    (h : extractOne tokenSetScore (socialName row) (catalog.map matchName) = some (n, s, j))
    (hts : t ≤ s) (hc : catalog[j]? = none) :
    textTier catalog t row = noMatchResult row.product_key := by
  unfold textTier
  simp only [h]
  rw [if_pos hts]
  simp only [hc]

/-! ## Claim theorems -/

/-- C4: category inference does NOT implement whole-word matching.  In the
`data_pipeline.py` variant, `contains_any` builds its pattern from the raw
string `r"\\b(…)\\b"`, which in a regular expression is a literal backslash
followed by a literal `b`, not a word boundary; consequently
`infer_category` returns `None` on text that plainly contains the keyword
`"stroller"` as a whole word (contradicting `contains_any`'s own
docstring).  The `src/analytics.py` variant instead tests plain substring
containment and fires on `"strollers"`, where no whole-word occurrence
exists. -/
theorem C4_category_inference_code_bug :
    infer_category_dp "my stroller is lovely" = none
    ∧ contains_any "my stroller is lovely" ["stroller"] = false
    ∧ hasInfixL "my stroller is lovely".data "stroller".data = true
    ∧ infer_category_analytics "love these strollers" = "stroller" := by
  refine ⟨by decide, by decide, by decide, by decide⟩

/-- C10: a `pipeline()` call with a non-empty `keyword_list` rebinds the
process-wide `BABY_KEYWORDS` global to that list, and a subsequent call
that omits `keyword_list` filters with the previously supplied keywords
(never the original defaults) — the global is not restored. -/
theorem C10_keyword_global_rebinding (ks : List String) (h : ks ≠ [])
    (blobs1 blobs2 : List String) :
    (pipelineKeywordStage BABY_KEYWORDS (some ks) blobs1).1 = ks
    ∧ pipelineKeywordStage ((pipelineKeywordStage BABY_KEYWORDS (some ks) blobs1).1)
        none blobs2 = (ks, filter_baby_posts ks blobs2) := by
  have hk : ks.isEmpty = false := by
    cases ks with
    | nil => exact absurd rfl h
    | cons a l => rfl
  constructor
  · simp [pipelineKeywordStage, applyKeywordOverride, hk]
  · simp [pipelineKeywordStage, applyKeywordOverride, hk]

/-- C10 witness: rebinding with `["buggy"]` leaves the global at
`["buggy"]`, and the next call (no `keyword_list`) filters with it. -/
theorem C10_witness :
    (pipelineKeywordStage BABY_KEYWORDS (some ["buggy"]) []).1 = ["buggy"]
    ∧ pipelineKeywordStage ((pipelineKeywordStage BABY_KEYWORDS (some ["buggy"]) []).1)
        none ["x"] = (["buggy"], filter_baby_posts ["buggy"] ["x"]) := by
  exact C10_keyword_global_rebinding ["buggy"] (by decide) [] ["x"]

/-- C9: `validate_columns` reports exactly the full set of missing required
columns (every missing one, not just the first), fails whenever one is
missing, and a social-input failure aborts `pipeline()` before any
computation stage runs. -/
theorem C9_validation_reports_all_missing (cols required : List String) :
    (∀ m, validate_columns cols required = some m →
        ∀ r, r ∈ m ↔ (r ∈ required ∧ r ∉ cols))
    ∧ ((∃ r ∈ required, r ∉ cols) → ∃ m, validate_columns cols required = some m)
    ∧ (∀ productCols imageCols m,
        validate_columns cols REQUIRED_SOCIAL_COLUMNS = some m →
        pipelineValidation cols productCols imageCols = .error ("social_posts", m)) := by
  refine ⟨?_, ?_, ?_⟩
  · intro m hm r
    unfold validate_columns at hm
    split at hm
    · exact Option.noConfusion hm
    · injection hm with hm
      rw [← hm, mem_sortedUnique, List.mem_filter]
      simp
  · intro ⟨r, hr, hrc⟩
    unfold validate_columns
    split
    · next hemp =>
      exfalso
      have hmem : r ∈ sortedUnique (required.filter fun r' => !cols.contains r') := by
        rw [mem_sortedUnique, List.mem_filter]
        exact ⟨hr, by simpa using hrc⟩
      rw [List.isEmpty_iff] at hemp
      rw [hemp] at hmem
      cases hmem
    · exact ⟨_, rfl⟩
  · intro productCols imageCols m hm
    unfold pipelineValidation
    rw [hm]

/-- C9 witness: a social input carrying only `post_id` and `caption` is
rejected with all seven other required columns listed, the error mentions
`likes` exactly because it is required and absent, and the pipeline aborts
with that error. -/
theorem C9_witness :
    validate_columns ["post_id", "caption"] REQUIRED_SOCIAL_COLUMNS
      = some ["comments", "hashtags", "image_id", "image_url", "likes",
              "platform", "posted_at"]
    ∧ ("likes" ∈ ["comments", "hashtags", "image_id", "image_url", "likes",
              "platform", "posted_at"]
        ↔ ("likes" ∈ REQUIRED_SOCIAL_COLUMNS ∧ "likes" ∉ ["post_id", "caption"]))
    ∧ (∃ m, validate_columns ["post_id", "caption"] REQUIRED_SOCIAL_COLUMNS = some m)
    ∧ pipelineValidation ["post_id", "caption"] [] none
      = .error ("social_posts",
          ["comments", "hashtags", "image_id", "image_url", "likes",
           "platform", "posted_at"]) := by
  refine ⟨by decide, ?_, ?_, ?_⟩
  · exact (C9_validation_reports_all_missing ["post_id", "caption"]
      REQUIRED_SOCIAL_COLUMNS).1 _ (by decide) "likes"
  · exact (C9_validation_reports_all_missing ["post_id", "caption"]
      REQUIRED_SOCIAL_COLUMNS).2.1 ⟨"likes", by decide, by decide⟩
  · exact (C9_validation_reports_all_missing ["post_id", "caption"]
      REQUIRED_SOCIAL_COLUMNS).2.2 [] none _ (by decide)

/-- C8: per-product price statistics are computed over the parsed prices
only — rows whose price failed numeric coercion (`NaN`) are excluded by the
skipna aggregations, never coerced to zero — and the mean rating likewise
ignores nulls.  The table row for any present product id carries exactly
the min / median / max of its parsed prices and the mean non-null rating. -/
theorem C8_price_stats_skip_unparsed (catalog : List CatalogPriceRow) (pid : String)
    (h : pid ∈ catalog.map (·.product_id)) :
    lookupBy pid (aggregate_prices catalog)
      = some (listMinQ (parsedPrices catalog pid), pyMedian (parsedPrices catalog pid),
              listMaxQ (parsedPrices catalog pid), meanQ (ratingsOf catalog pid)) := by
  unfold aggregate_prices
  exact lookupBy_map_of_mem (priceStatsFor catalog) pid _ (List.mem_dedup.mpr h)

/-- C8 witness: the spec's example — prices `[10, null, 30, 20]` (with one
rating `4`) yield min 10, median 20, max 30; the null price is excluded,
not zeroed. -/
theorem C8_witness :
    lookupBy "P" (aggregate_prices
        [⟨"P", some 10, none⟩, ⟨"P", none, some 4⟩, ⟨"P", some 30, none⟩,
         ⟨"P", some 20, none⟩])
      = some (some 10, some 20, some 30, some 4)
    ∧ parsedPrices
        [⟨"P", some 10, none⟩, ⟨"P", none, some 4⟩, ⟨"P", some 30, none⟩,
         ⟨"P", some 20, none⟩] "P" = [10, 30, 20] := by
  constructor
  · have h := C8_price_stats_skip_unparsed
      [⟨"P", some 10, none⟩, ⟨"P", none, some 4⟩, ⟨"P", some 30, none⟩,
       ⟨"P", some 20, none⟩] "P" (by decide)
    rw [h]
    have h1 : parsedPrices
        [⟨"P", some 10, none⟩, ⟨"P", none, some 4⟩, ⟨"P", some 30, none⟩,
         ⟨"P", some 20, none⟩] "P" = [10, 30, 20] := by decide
    have h2 : ratingsOf
        [⟨"P", some 10, none⟩, ⟨"P", none, some 4⟩, ⟨"P", some 30, none⟩,
         ⟨"P", some 20, none⟩] "P" = [4] := by decide
    rw [h1, h2]
    have hmin : listMinQ [10, 30, 20] = some 10 := by decide
    have hmed : pyMedian [10, 30, 20] = some 20 := by decide
    have hmax : listMaxQ [10, 30, 20] = some 30 := by decide
    have hmean : meanQ [4] = some 4 := by
      unfold meanQ
      norm_num
    rw [hmin, hmed, hmax, hmean]
  · decide

/-- C1 (amended): when the first image-table hit among the group's posts
(scanned in `post_ids` order) carries a non-empty product id that is
present in the catalog, the resolver adopts it with score 100 and source
`image_match`, and the text tier never runs; when the hit's id is empty or
absent from the catalog, the group falls through to the text tier instead
(see the counterexample). -/
theorem C1_image_tier_precedence (catalog : List CatalogEntry)
    (ims : List (String × String)) (t : ℚ) (row : SocialProduct)
    (cid : String) (c : CatalogEntry)
    (h1 : row.post_ids.findSome? (imageLookup ims) = some cid)
    (h2 : cid ≠ "")
    (h3 : catalog.find? (fun e => decide (e.product_id = cid)) = some c) :
    resolveOne catalog ims t row
      = ⟨row.product_key, some cid, some c.product_name, 100, "image_match"⟩ :=
  resolveOne_of_imageTier_some _ _ _ _ _ (imageTier_of_hit _ _ _ _ _ h1 h2 h3)

/-- C1 witness: the group's post `p1` is image-matched to catalog product
`A`, while its text blob would also text-match catalog entry `B` with score
100 ≥ 75 — the resolver still returns `A` at score 100 / `image_match`. -/
theorem C1_witness :
    resolveOne [⟨"B", "crib", "ikea", "", ""⟩, ⟨"A", "zzz", "", "", ""⟩]
        [("p1", "A")] 75 ⟨"crib", "", "ikea", "", "", ["p1"]⟩
      = ⟨"crib", some "A", some "zzz", 100, "image_match"⟩
    ∧ tokenSetScore (socialName ⟨"crib", "", "ikea", "", "", ["p1"]⟩)
        (matchName ⟨"B", "crib", "ikea", "", ""⟩) = 100
    ∧ (75:ℚ) ≤ 100 := by
  refine ⟨?_, by decide, by decide⟩
  exact C1_image_tier_precedence _ _ _ _ "A" ⟨"A", "zzz", "", "", ""⟩
    (by decide) (by decide) (by decide)

/-- C1 counterexample to the claim as stated: the group's sole post `p1`
HAS an identifier present in the image-match table, yet the resolver does
not adopt that id with score 100 — when the mapped id (`"ZZZ"`) is absent
from the catalog, and likewise when it is the empty string (falsy in
Python), the loop falls through and the group ends `no_match` via the text
tier. -/
theorem C1_counterexample :
    ((⟨"k", "", "", "", "", ["p1"]⟩ : SocialProduct).post_ids.findSome?
        (imageLookup [("p1", "ZZZ")]) = some "ZZZ")
    ∧ resolveOne [⟨"A", "", "", "", ""⟩] [("p1", "ZZZ")] 75
        ⟨"k", "", "", "", "", ["p1"]⟩
      = ⟨"k", none, none, 0, "no_match"⟩
    ∧ resolveOne [⟨"", "", "", "", ""⟩] [("p1", "")] 75
        ⟨"k", "", "", "", "", ["p1"]⟩
      = ⟨"k", none, none, 0, "no_match"⟩ := by
  refine ⟨by decide, by decide, by decide⟩

/-- C2: for a group the image tier did not resolve, with
`(n, s, j)` the best catalog blob / score / index returned by
`extractOne`: a best score at or above the threshold yields `text_match`
with that score and the `j`-th catalog entry's id and name (boundary
inclusive), and a best score strictly below the threshold yields
`no_match` with null catalog id and score 0. -/
theorem C2_text_threshold_boundary (catalog : List CatalogEntry)
    (ims : List (String × String)) (t : ℚ) (row : SocialProduct)
    (n : String) (s : ℚ) (j : Nat)
    (himg : imageTier catalog ims row = none)
    (hbest : extractOne tokenSetScore (socialName row) (catalog.map matchName)
        = some (n, s, j)) :
    (t ≤ s → resolveOne catalog ims t row
        = ⟨row.product_key, some ((catalog.getD j defaultEntry).product_id),
           some ((catalog.getD j defaultEntry).product_name), s, "text_match"⟩)
    ∧ (s < t → resolveOne catalog ims t row
        = ⟨row.product_key, none, none, 0, "no_match"⟩) := by
  constructor
  · intro hts
    rw [resolveOne_of_imageTier_none _ _ _ _ himg]
    have hj : j < catalog.length := by
      have h := extractOne_idx_lt _ _ _ _ _ _ hbest
      simpa using h
    have hc : catalog[j]? = some (catalog.getD j defaultEntry) := by
      rw [List.getElem?_eq_getElem hj]
      rw [List.getD_eq_getElem catalog defaultEntry hj]
    exact textTier_of_hit _ _ _ _ _ _ _ hbest hts hc
  · intro hst
    rw [resolveOne_of_imageTier_none _ _ _ _ himg]
    exact textTier_of_low _ _ _ _ _ _ hbest hst

/-- C2 witness: with best score exactly 100, threshold 100 accepts
(boundary inclusive: score = threshold) and threshold 101 rejects
(score = threshold − 1) with `no_match`/null/0. -/
theorem C2_witness :
    resolveOne [⟨"A", "crib", "ikea", "", ""⟩] [] 100 ⟨"crib", "", "ikea", "", "", []⟩
      = ⟨"crib", some "A", some "crib", 100, "text_match"⟩
    ∧ resolveOne [⟨"A", "crib", "ikea", "", ""⟩] [] 101 ⟨"crib", "", "ikea", "", "", []⟩
      = ⟨"crib", none, none, 0, "no_match"⟩ := by
  constructor
  · have h := (C2_text_threshold_boundary [⟨"A", "crib", "ikea", "", ""⟩] [] 100
      ⟨"crib", "", "ikea", "", "", []⟩ "ikea crib" 100 0 (by decide) (by decide)).1
      (by norm_num)
    exact h.trans (by decide)
  · exact (C2_text_threshold_boundary [⟨"A", "crib", "ikea", "", ""⟩] [] 101
      ⟨"crib", "", "ikea", "", "", []⟩ "ikea crib" 100 0 (by decide) (by decide)).2
      (by norm_num)

/-- C3 (amended): every resolved match satisfies: source `image_match`
with score exactly 100 and an image-table hit behind it, or source
`text_match` with score in the CLOSED interval `[threshold, 100]` (an
exact-blob match does reach 100 — see the counterexample to the half-open
claim), or source `no_match` with score 0 and null catalog id. -/
theorem C3_resolved_match_invariant (catalog : List CatalogEntry)
    (ims : List (String × String)) (t : ℚ) (row : SocialProduct) :
    ((resolveOne catalog ims t row).source = "image_match"
        ∧ (resolveOne catalog ims t row).score = 100
        ∧ ∃ pid ∈ row.post_ids,
            imageLookup ims pid = (resolveOne catalog ims t row).catalog_id)
    ∨ ((resolveOne catalog ims t row).source = "text_match"
        ∧ t ≤ (resolveOne catalog ims t row).score
        ∧ (resolveOne catalog ims t row).score ≤ 100)
    ∨ ((resolveOne catalog ims t row).source = "no_match"
        ∧ (resolveOne catalog ims t row).score = 0
        ∧ (resolveOne catalog ims t row).catalog_id = none) := by
  cases him : imageTier catalog ims row with
  | some r =>
    obtain ⟨cid, c, hfs, hcid, hfind, hr⟩ := imageTier_inv _ _ _ _ him
    rw [resolveOne_of_imageTier_some _ _ t _ _ him]
    subst hr
    left
    refine ⟨rfl, rfl, ?_⟩
    obtain ⟨pid, hmem, hlook⟩ := exists_of_findSome? _ _ _ hfs
    exact ⟨pid, hmem, hlook⟩
  | none =>
    rw [resolveOne_of_imageTier_none _ _ t _ him]
    cases hb : extractOne tokenSetScore (socialName row) (catalog.map matchName) with
    | none =>
      rw [textTier_of_none _ _ _ hb]
      right; right
      exact ⟨rfl, rfl, rfl⟩
    | some trip =>
      obtain ⟨n, s, j⟩ := trip
      by_cases hts : t ≤ s
      · cases hcj : catalog[j]? with
        | some c =>
          rw [textTier_of_hit _ _ _ _ _ _ _ hb hts hcj]
          right; left
          exact ⟨rfl, hts,
            extractOne_score_le _ _ _ 100 (fun a b => tokenSetScore_le_hundred a b) _ _ _ hb⟩
        | none =>
          rw [textTier_of_oob _ _ _ _ _ _ hb hts hcj]
          right; right
          exact ⟨rfl, rfl, rfl⟩
      · rw [textTier_of_low _ _ _ _ _ _ hb (lt_of_not_ge hts)]
        right; right
        exact ⟨rfl, rfl, rfl⟩

/-- C3 counterexample to the claim as stated: a group whose blob equals a
catalog entry's search blob resolves as `text_match` with score exactly
100 — so `text_match` scores are NOT confined to the half-open interval
`[threshold, 100)`. -/
theorem C3_counterexample :
    resolveOne [⟨"A", "crib", "ikea", "", ""⟩] [] 75 ⟨"crib", "", "ikea", "", "", []⟩
      = ⟨"crib", some "A", some "crib", 100, "text_match"⟩ := by
  decide

/-- C5 (amended): the model heuristic returns the first whitespace token
that is title-cased or all-uppercase of the text the pipeline actually
hands it: the NORMALIZED (lowercased) caption joined with the hashtag
tokens extracted from the raw hashtag string (which keep their case) — and
`none` when no such token exists.  Consequently caption-derived tokens,
being lowercased, can never be selected: only hashtag tokens can. -/
theorem C5_model_heuristic_amended :
    (∀ p : RawPost, modelOfPost p
        = (pySplit (extractText p)).find? fun tok => pyIstitle tok || pyIsupper tok)
    ∧ (∀ p : RawPost, ∀ tok ∈ pySplit (captionClean p),
        (pyIstitle tok || pyIsupper tok) = false) := by
  constructor
  · intro p
    unfold modelOfPost detectModel
    exact filter_head?_eq_find? _ _
  · intro p tok htok
    exact title_or_upper_false_of_no_upper tok fun c hc =>
      normalize_chars_not_upper p.caption c (mem_of_mem_pySplit _ _ htok c hc)

/-- C5 witness: for caption `"Best crib"` with hashtag `"#IKEA"`, the
extracted blob is `"best crib IKEA"` and the model is the hashtag token
`"IKEA"`; the caption token `"best"` (lowercased by normalization) can
never be selected. -/
theorem C5_witness :
    modelOfPost ⟨"Best crib", "#IKEA"⟩ = some "IKEA"
    ∧ (pyIstitle "best" || pyIsupper "best") = false := by
  constructor
  · exact (C5_model_heuristic_amended.1 ⟨"Best crib", "#IKEA"⟩).trans (by decide)
  · exact C5_model_heuristic_amended.2 ⟨"Best crib", "#IKEA"⟩ "best" (by decide)

/-- C5 counterexample to the claim as stated: for the post with ORIGINAL
caption `"IKEA SNIGLAR crib"` and no hashtags, the first title-cased or
all-uppercase whitespace token of the original text is `"IKEA"` — but the
pipeline's model is `none`, because the heuristic runs on the normalized
(lowercased) caption, not the original text. -/
theorem C5_counterexample :
    modelOfPost ⟨"IKEA SNIGLAR crib", ""⟩ = none
    ∧ detectModel "IKEA SNIGLAR crib" = some "IKEA" := by
  refine ⟨by decide, by decide⟩

/-- C7 (amended): the product key is a function of the (category, brand,
model) triple — identical triples always give identical keys — and for
fixed category and brand, models whose right-stripped forms differ always
give different keys.  Models that differ only in trailing whitespace (or a
model string spliced from the `" | "` delimiter across fields) can collide
— see the counterexample. -/
theorem C7_product_key_determinism (c b m : String) (c' b' m' : String) :
    (c = c' → b = b' → m = m' →
        make_product_key c b m = make_product_key c' b' m')
    ∧ (rstripL m.data ≠ rstripL m'.data →
        make_product_key c b m ≠ make_product_key c b m') := by
  constructor
  · intro h1 h2 h3
    rw [h1, h2, h3]
  · intro hm heq
    have hd : stripL ((c ++ " | " ++ b ++ " | " ++ m).data)
        = stripL ((c ++ " | " ++ b ++ " | " ++ m').data) := congrArg String.data heq
    have hbar : ('|' : Char) ∈ (c ++ " | " ++ b ++ " | ").data := by
      rw [String.data_append]
      exact List.mem_append.mpr (Or.inr (by decide))
    have hlne : lstripL (c ++ " | " ++ b ++ " | ").data ≠ [] :=
      dropWhile_ne_nil_of_mem _ _ _ hbar (by decide)
    have key_eq : ∀ mm : String, stripL ((c ++ " | " ++ b ++ " | " ++ mm).data)
        = if rstripL mm.data = []
          then rstripL (lstripL (c ++ " | " ++ b ++ " | ").data)
          else lstripL (c ++ " | " ++ b ++ " | ").data ++ rstripL mm.data := by
      intro mm
      rw [String.data_append]
      unfold stripL
      rw [lstripL_append_of_ne _ _ hlne, rstripL_append]
    rw [key_eq m, key_eq m'] at hd
    by_cases h1 : rstripL m.data = [] <;> by_cases h2 : rstripL m'.data = []
    · exact hm (h1.trans h2.symm)
    · rw [if_pos h1, if_neg h2] at hd
      have hlen := congrArg List.length hd
      rw [List.length_append] at hlen
      have hle := rstripL_length_le (lstripL (c ++ " | " ++ b ++ " | ").data)
      have hpos : 0 < (rstripL m'.data).length := List.length_pos.mpr h2
      omega
    · rw [if_neg h1, if_pos h2] at hd
      have hlen := congrArg List.length hd
      rw [List.length_append] at hlen
      have hle := rstripL_length_le (lstripL (c ++ " | " ++ b ++ " | ").data)
      have hpos : 0 < (rstripL m.data).length := List.length_pos.mpr h1
      omega
    · rw [if_neg h1, if_neg h2] at hd
      exact hm (List.append_cancel_left hd)

/-- C7 witness: the spec's own example — identical `(crib, IKEA, SNIGLAR)`
triples give identical keys, and model `""` gives a different key than
model `"SNIGLAR"`. -/
theorem C7_witness :
    make_product_key "crib" "IKEA" "SNIGLAR" = make_product_key "crib" "IKEA" "SNIGLAR"
    ∧ make_product_key "crib" "IKEA" "" ≠ make_product_key "crib" "IKEA" "SNIGLAR" := by
  constructor
  · exact (C7_product_key_determinism "crib" "IKEA" "SNIGLAR" "crib" "IKEA" "SNIGLAR").1
      rfl rfl rfl
  · exact (C7_product_key_determinism "crib" "IKEA" "" "crib" "IKEA" "SNIGLAR").2
      (by decide)

/-- C7 counterexample to the claim as stated: two posts that differ in the
model value need NOT produce different keys — `.strip()` erases a trailing
space of the model (`"SNIGLAR "` vs `"SNIGLAR"`), and the `" | "` joiner is
not injective across fields (`("a", "b", "c | d")` collides with
`("a | b", "c", "d")`). -/
theorem C7_counterexample :
    make_product_key "crib" "IKEA" "SNIGLAR " = make_product_key "crib" "IKEA" "SNIGLAR"
    ∧ ("SNIGLAR " : String) ≠ "SNIGLAR"
    ∧ make_product_key "a" "b" "c | d" = make_product_key "a | b" "c" "d"
    ∧ ("c | d" : String) ≠ "d" := by
  refine ⟨by decide, by decide, by decide, by decide⟩

/-- C6 (amended): when at least one timestamp parses, every product key
with at least one post in the recent or prior window appears in the trend
table with growth exactly `(recent_count + 1) / (prior_count + 1)`; a key
with NO post in either window — e.g. one whose posts all predate the prior
cutoff — is ABSENT from the table (so the merge leaves its growth null,
not 1.0; see the counterexample); and when no post has a parseable
timestamp, every key appears with growth 0.0. -/
theorem C6_trend_growth (posts : List TrendPost) (rm pm : Nat) (k : String)
    (L : PyDate) (p : TrendPost) :
    (latestDate posts = some L →
        0 < recentPostCount posts rm k + priorPostCount posts rm pm k →
        lookupBy k (compute_time_trends posts rm pm)
          = some (((recentPostCount posts rm k : ℚ) + 1)
                    / ((priorPostCount posts rm pm k : ℚ) + 1)))
    ∧ (latestDate posts = some L →
        recentPostCount posts rm k = 0 → priorPostCount posts rm pm k = 0 →
        lookupBy k (compute_time_trends posts rm pm) = none)
    ∧ (latestDate posts = none → p ∈ posts →
        lookupBy p.product_key (compute_time_trends posts rm pm) = some 0) := by
  have hrc : ∀ (hL : latestDate posts = some L), recentPostCount posts rm k
      = (posts.filter fun q => decide (q.product_key = k)
          && inRecentWindow (L.subMonths rm) q).length := by
    intro hL
    unfold recentPostCount
    rw [hL]
  have hpc : ∀ (hL : latestDate posts = some L), priorPostCount posts rm pm k
      = (posts.filter fun q => decide (q.product_key = k)
          && inPriorWindow ((L.subMonths rm).subMonths pm) (L.subMonths rm) q).length := by
    intro hL
    unfold priorPostCount
    rw [hL]
  have hcount : ∀ (w : TrendPost → Bool),
      (posts.filter w).countP (fun q => decide (q.product_key = k))
        = (posts.filter fun q => decide (q.product_key = k) && w q).length := by
    intro w
    rw [List.countP_eq_length_filter, List.filter_filter]
  have hmemcount : ∀ (w : TrendPost → Bool),
      (posts.filter fun q => decide (q.product_key = k) && w q) ≠ [] ↔
        k ∈ (posts.filter w).map (·.product_key) := by
    intro w
    constructor
    · intro hne
      obtain ⟨q, hq⟩ := List.exists_mem_of_length_pos (List.length_pos.mpr hne)
      rcases List.mem_filter.mp hq with ⟨hqposts, hqb⟩
      rcases Bool.and_eq_true_iff.mp hqb with ⟨hqk, hqw⟩
      exact List.mem_map.mpr ⟨q, List.mem_filter.mpr ⟨hqposts, hqw⟩, of_decide_eq_true hqk⟩
    · intro hk
      rcases List.mem_map.mp hk with ⟨q, hq, hqk⟩
      rcases List.mem_filter.mp hq with ⟨hqposts, hqw⟩
      refine List.ne_nil_of_mem (a := q) (List.mem_filter.mpr ⟨hqposts, ?_⟩)
      rw [Bool.and_eq_true_iff]
      exact ⟨decide_eq_true hqk, hqw⟩
  refine ⟨?_, ?_, ?_⟩
  · intro hL hpos
    unfold compute_time_trends
    simp only [hL]
    rw [lookupBy_map_of_mem
      (fun k' => (((posts.filter (inRecentWindow (L.subMonths rm))).countP
            (fun q => decide (q.product_key = k')) : ℚ) + 1)
          / (((posts.filter (inPriorWindow ((L.subMonths rm).subMonths pm)
              (L.subMonths rm))).countP (fun q => decide (q.product_key = k')) : ℚ) + 1))
      k _ ?_]
    · rw [hcount, hcount, ← hrc hL, ← hpc hL]
    · rw [List.mem_dedup, List.mem_append]
      rcases Nat.lt_or_ge 0 (recentPostCount posts rm k) with hr | hr
      · left
        rw [hrc hL] at hr
        exact (hmemcount _).mp (by
          intro hnil
          rw [hnil] at hr
          exact absurd hr (by simp))
      · right
        have hp' : 0 < priorPostCount posts rm pm k := by omega
        rw [hpc hL] at hp'
        exact (hmemcount _).mp (by
          intro hnil
          rw [hnil] at hp'
          exact absurd hp' (by simp))
  · intro hL h1 h2
    unfold compute_time_trends
    simp only [hL]
    apply lookupBy_map_of_not_mem
    rw [List.mem_dedup, List.mem_append]
    rintro (hk | hk)
    · have hne := (hmemcount (inRecentWindow (L.subMonths rm))).mpr hk
      rw [hrc hL] at h1
      exact hne (List.length_eq_zero.mp h1)
    · have hne := (hmemcount (inPriorWindow ((L.subMonths rm).subMonths pm)
        (L.subMonths rm))).mpr hk
      rw [hpc hL] at h2
      exact hne (List.length_eq_zero.mp h2)
  · intro hL hp
    unfold compute_time_trends
    simp only [hL]
    exact lookupBy_map_of_mem (fun _ => (0 : ℚ)) _ _
      (List.mem_dedup.mpr (List.mem_map_of_mem _ hp))

/-- C6 witness: with one post at 2024-01-15 (key `new`) and one at
2020-01-01 (key `old`), windows of 3 months each: key `new` has growth
`(1+1)/(0+1) = 2`; and with no parseable timestamp at all, every key gets
growth 0.0. -/
theorem C6_witness :
    lookupBy "new" (compute_time_trends
        [⟨"new", some ⟨2024, 1, 15⟩⟩, ⟨"old", some ⟨2020, 1, 1⟩⟩] 3 3) = some 2
    ∧ lookupBy "k" (compute_time_trends [⟨"k", none⟩] 3 3) = some 0 := by
  constructor
  · have h := (C6_trend_growth
      [⟨"new", some ⟨2024, 1, 15⟩⟩, ⟨"old", some ⟨2020, 1, 1⟩⟩] 3 3 "new"
      ⟨2024, 1, 15⟩ ⟨"new", some ⟨2024, 1, 15⟩⟩).1 (by decide) (by decide)
    rw [h]
    have h1 : recentPostCount
        [⟨"new", some ⟨2024, 1, 15⟩⟩, ⟨"old", some ⟨2020, 1, 1⟩⟩] 3 "new" = 1 := by decide
    have h2 : priorPostCount
        [⟨"new", some ⟨2024, 1, 15⟩⟩, ⟨"old", some ⟨2020, 1, 1⟩⟩] 3 3 "new" = 0 := by decide
    rw [h1, h2]
    norm_num
  · exact (C6_trend_growth [⟨"k", none⟩] 3 3 "k" ⟨0, 1, 1⟩ ⟨"k", none⟩).2.2
      (by decide) (by decide)

/-- C6 counterexample to the claim as stated: key `old` has
`recent_count = 0` and `prior_count = 0` (its one post predates the prior
cutoff), so the claim demands growth `(0+1)/(0+1) = 1.0` — but the key is
simply ABSENT from the trend table (`lookup` returns `none`, and the later
left-merge leaves NaN, not 1.0). -/
theorem C6_counterexample :
    recentPostCount [⟨"new", some ⟨2024, 1, 15⟩⟩, ⟨"old", some ⟨2020, 1, 1⟩⟩] 3 "old" = 0
    ∧ priorPostCount [⟨"new", some ⟨2024, 1, 15⟩⟩, ⟨"old", some ⟨2020, 1, 1⟩⟩] 3 3 "old" = 0
    ∧ lookupBy "old" (compute_time_trends
        [⟨"new", some ⟨2024, 1, 15⟩⟩, ⟨"old", some ⟨2020, 1, 1⟩⟩] 3 3) = none := by
  refine ⟨by decide, by decide, by decide⟩
